import Mathlib

/-!
Verification of the two-stage anchor autocalibration solver
(`scripts/AutocalibrationSolver.py`, driver `scripts/autocalibration_solver.py`).

The Python code is shallowly embedded over exact rationals (`ℚ`):

* an anchor coordinate row is a `Vec3`, an `(N,3)` array a `List Vec3`,
  an `(N,N)` range matrix a `List (List ℚ)`, and the `(N,M,N)` sample cube a
  `List (List (List ℚ))` indexed `(i, m, k)`;
* `numpy.linalg.pinv` (a floating-point SVD pseudo-inverse) and
  `scipy.optimize.fmin` (the Nelder-Mead direct search) are opaque parameters
  `pinv` / `opt` of the functions that call them; every theorem about them
  either holds for all such parameters or instantiates them explicitly;
* `float` comparisons become exact `ℚ` comparisons; the one square root in the
  code (`np.linalg.norm` in the Stage-1 termination test) is eliminated by the
  exact equivalence  `sqrt s < t ↔ 0 < t ∧ s < t^2`  for `s ≥ 0`.

Out-of-range indexing never occurs in the Python code on shape-correct inputs;
the embedding uses `List.getD` with a default for such indices.
-/

attribute [local semireducible] Rat.add Rat.sub Rat.mul Rat.inv Rat.ofScientific

/-- Coordinate row of one anchor: an `(x, y, z)` triple of rationals. -/
structure Vec3 where
  x : ℚ
  y : ℚ
  z : ℚ
deriving DecidableEq, Repr

/-- Zero vector, also used as the `getD` default for coordinate lists. -/
def v0 : Vec3 := ⟨0, 0, 0⟩

/-- Componentwise difference of two coordinate rows. -/
def vsub (a b : Vec3) : Vec3 := ⟨a.x - b.x, a.y - b.y, a.z - b.z⟩

/-- Scalar multiple of a coordinate row. -/
def vscale (c : ℚ) (a : Vec3) : Vec3 := ⟨c * a.x, c * a.y, c * a.z⟩

/-- Squared Euclidean norm of a row (`np.sum(v**2)`). -/
def normSq (a : Vec3) : ℚ := a.x ^ 2 + a.y ^ 2 + a.z ^ 2

/-- Squared Euclidean distance between two rows. -/
def distSq (a b : Vec3) : ℚ := normSq (vsub a b)

/-- View of a row as a 3-element list. -/
def vecToList (a : Vec3) : List ℚ := [a.x, a.y, a.z]

/-- First three entries of a list of rationals as a `Vec3`. -/
def vecOf (l : List ℚ) : Vec3 := ⟨l.getD 0 0, l.getD 1 0, l.getD 2 0⟩

/-- Entry `(i, k)` of an `(N,N)` matrix; out-of-shape indices read the
sentinel `-1` (never reached on shape-correct inputs). -/
def rmGet (rm : List (List ℚ)) (i k : Nat) : ℚ := (rm.getD i []).getD k (-1)

/-- Matrix-vector product `np.dot` for a matrix given as a list of rows. -/
def matVec (m : List (List ℚ)) (v : List ℚ) : List ℚ :=
  m.map (fun row => (List.zipWith (fun a b => a * b) row v).sum)

/-! ### Linear multilateration subroutine (`coordinatesOpt`, lines 153-171)

`A = 2 * np.copy(anchors_coords)`; then `for i in range(A.shape[0] - 1):
A[i] = A[-1] - A[i]`; then `A = A[:-1]`.  The loop is embedded literally as a
fold that rewrites row `i` using the current value of the last row. -/

/-- Doubled coordinate matrix `2 * np.copy(anchors_coords)`. -/
def buildAInit (coords : List Vec3) : List Vec3 := coords.map (fun c => vscale 2 c)

/-- One step of the Python loop `A[i] = A[-1] - A[i]` (with `K` the fixed
number of rows of `A`, so `A[-1]` is `A[K-1]`). -/
def buildAStep (K : Nat) (A : List Vec3) (i : Nat) : List Vec3 :=
  A.set i (vsub (A.getD (K - 1) v0) (A.getD i v0))

/-- Matrix `A` of `coordinatesOpt`: run the rewrite loop over
`range(K - 1)`, then drop the last row (`A = A[:-1]`). -/
def buildA (coords : List Vec3) : List (List ℚ) :=
  (((List.range (coords.length - 1)).foldl (buildAStep coords.length)
      (buildAInit coords)).dropLast).map vecToList

/-- Vector `B` of `coordinatesOpt`:
`B = ranges**2; B = B[:-1] - B[-1] - np.sum(coords**2, axis=1)[:-1]
 + np.sum(coords[-1]**2)`. -/
def buildB (coords : List Vec3) (ranges : List ℚ) : List ℚ :=
  List.zipWith
    (fun b s2 =>
      b - (ranges.map (fun r => r ^ 2)).getD (ranges.length - 1) 0 - s2 +
        normSq (coords.getD (coords.length - 1) v0))
    ((ranges.map (fun r => r ^ 2)).dropLast) ((coords.map normSq).dropLast)

/-- Embedding of `AutocalibrationSolver.coordinatesOpt`:
`np.dot(np.linalg.pinv(A), B)`, with the pseudo-inverse as the opaque
parameter `pinv`. -/
def coordinatesOpt (pinv : List (List ℚ) → List (List ℚ))
    (coords : List Vec3) (ranges : List ℚ) : Vec3 :=
  vecOf (matVec (pinv (buildA coords)) (buildB coords ranges))

/-- Matrix `A` as the specification words it (claim C5): a `(K-1)×3` matrix
whose row `i` is `2 * (coord[K-1] - coord[i])`. -/
def buildASpec (coords : List Vec3) : List (List ℚ) :=
  coords.dropLast.map (fun c =>
    [2 * ((coords.getD (coords.length - 1) v0).x - c.x),
     2 * ((coords.getD (coords.length - 1) v0).y - c.y),
     2 * ((coords.getD (coords.length - 1) v0).z - c.z)])

/-- Vector `b` as the specification words it (claim C5):
`b[i] = range[i]^2 - range[K-1]^2 - normSq coord[i] + normSq coord[K-1]`. -/
def buildBSpec (coords : List Vec3) (ranges : List ℚ) : List ℚ :=
  (List.range (coords.length - 1)).map (fun i =>
    (ranges.getD i 0) ^ 2 - (ranges.getD (coords.length - 1) 0) ^ 2 -
      normSq (coords.getD i v0) + normSq (coords.getD (coords.length - 1) v0))

/-! ### Stage 1 (`stageOne`, lines 59-104) -/

/-- Neighbor gathering of Stage 1 for anchor `i` (lines 83-89): every column
`k` of row `i` in index order, kept unless `samples_ik[i,k] < 0.0`, paired
with anchor `k`'s current coordinate row. -/
def stageOneGather (rm : List (List ℚ)) (i : Nat) (coords : List Vec3)
    (n : Nat) : List (Vec3 × ℚ) :=
  ((List.range n).filter (fun k => ! decide (rmGet rm i k < 0))).map
    (fun k => (coords.getD k v0, rmGet rm i k))

/-- Neighbor gathering as the specification words it (claims C4/C7): gather
every anchor `k ≠ i` with `rangeMatrix[i,k] ≥ 0`, self-entries always
excluded. -/
def stageOneGatherSpec (rm : List (List ℚ)) (i : Nat) (coords : List Vec3)
    (n : Nat) : List (Vec3 × ℚ) :=
  ((List.range n).filter (fun k => decide (k ≠ i) && ! decide (rmGet rm i k < 0))).map
    (fun k => (coords.getD k v0, rmGet rm i k))

/-- One Stage-1 pass over all anchors in index order (lines 80-94):
fixed anchors are skipped, and anchor `i` is rewritten by `coordinatesOpt`
exactly when the gathered neighbor count reaches `LSq_min_anchors`.  The fold
threads the updated coordinate list, so updates made earlier in the same pass
are visible (Gauss-Seidel order). -/
def stageOnePass (pinv : List (List ℚ) → List (List ℚ)) (minA n : Nat)
    (rm : List (List ℚ)) (fixed : List Bool) (coords : List Vec3) : List Vec3 :=
  (List.range n).foldl
    (fun c i =>
      if fixed.getD i false = true then c
      else if minA ≤ (stageOneGather rm i c n).length then
        c.set i (coordinatesOpt pinv ((stageOneGather rm i c n).map Prod.fst)
          ((stageOneGather rm i c n).map Prod.snd))
      else c)
    coords

/-- One Stage-1 pass using the specification's neighbor gathering. -/
def stageOnePassSpec (pinv : List (List ℚ) → List (List ℚ)) (minA n : Nat)
    (rm : List (List ℚ)) (fixed : List Bool) (coords : List Vec3) : List Vec3 :=
  (List.range n).foldl
    (fun c i =>
      if fixed.getD i false = true then c
      else if minA ≤ (stageOneGatherSpec rm i c n).length then
        c.set i (coordinatesOpt pinv ((stageOneGatherSpec rm i c n).map Prod.fst)
          ((stageOneGatherSpec rm i c n).map Prod.snd))
      else c)
    coords

/-- Sum of squared entries of the elementwise difference of two `(N,3)`
coordinate lists, i.e. the square of the Frobenius norm computed by
`np.linalg.norm(cur - old)` at line 103. -/
def coordsDiffSq (a b : List Vec3) : ℚ :=
  (List.zipWith (fun u v => normSq (vsub u v)) a b).sum

/-- Exact encoding of the termination test
`np.abs(np.linalg.norm(cur - old)) < thresh` (line 103): for `S ≥ 0` one has
`sqrt S < t ↔ 0 < t ∧ S < t^2` (the `abs` is a no-op on a norm). -/
def normLtQ (S t : ℚ) : Prop := 0 < t ∧ S < t ^ 2

instance (S t : ℚ) : Decidable (normLtQ S t) :=
  inferInstanceAs (Decidable (0 < t ∧ S < t ^ 2))

/-- Stage-1 iteration (lines 75-104): at most `fuel = max_iters` passes,
stopping after a pass as soon as the coordinate change is below
`convergence_thresh`. -/
def stageOneLoop (pinv : List (List ℚ) → List (List ℚ)) (minA n : Nat)
    (rm : List (List ℚ)) (fixed : List Bool) (thresh : ℚ) :
    Nat → List Vec3 → List Vec3
  | 0, c => c
  | Nat.succ fuel, c =>
    if normLtQ (coordsDiffSq (stageOnePass pinv minA n rm fixed c) c) thresh then
      stageOnePass pinv minA n rm fixed c
    else
      stageOneLoop pinv minA n rm fixed thresh fuel
        (stageOnePass pinv minA n rm fixed c)

/-- Stage-1 iteration as the specification words it (claim C4), differing
from `stageOneLoop` only in the neighbor gathering. -/
def stageOneLoopSpec (pinv : List (List ℚ) → List (List ℚ)) (minA n : Nat)
    (rm : List (List ℚ)) (fixed : List Bool) (thresh : ℚ) :
    Nat → List Vec3 → List Vec3
  | 0, c => c
  | Nat.succ fuel, c =>
    if normLtQ (coordsDiffSq (stageOnePassSpec pinv minA n rm fixed c) c) thresh then
      stageOnePassSpec pinv minA n rm fixed c
    else
      stageOneLoopSpec pinv minA n rm fixed thresh fuel
        (stageOnePassSpec pinv minA n rm fixed c)

/-! ### Stage 2 (`costOpt` and `_my_opt_func`, lines 173-233) -/

/-- Embedding of line 222, `anchors_coords = anchors_coords.T.reshape(-1,3)`,
applied to an `(N,3)` array: the transpose is flattened in C order (all `x`
coordinates, then all `y`, then all `z`) and re-chunked into rows of three.
For `N ≠ 1` this scrambles the rows. -/
def transReshape (coords : List Vec3) : List Vec3 :=
  (List.range coords.length).map (fun i =>
    ⟨(coords.map Vec3.x ++ coords.map Vec3.y ++ coords.map Vec3.z).getD (3 * i) 0,
     (coords.map Vec3.x ++ coords.map Vec3.y ++ coords.map Vec3.z).getD (3 * i + 1) 0,
     (coords.map Vec3.x ++ coords.map Vec3.y ++ coords.map Vec3.z).getD (3 * i + 2) 0⟩)

/-- Embedding of `Theta.reshape(n_anchors, 3)` (line 209) and
`Theta_opt.reshape(anchors_coords.shape)` (line 230): numpy only reshapes
size-matching data (`fmin` always returns an array shaped like its start
point), under which this is the identity re-chunking to `n` rows. -/
def reshapeTo (n : Nat) (xs : List Vec3) : List Vec3 :=
  (List.range n).map (fun i => xs.getD i v0)

/-- Embedding of the boolean-mask row assignment
`Theta[fixed_anchors] = Theta_init[fixed_anchors]` (lines 212 and 231). -/
def pinFixed (fixed : List Bool) (init Θ : List Vec3) : List Vec3 :=
  (List.range Θ.length).map (fun i =>
    if fixed.getD i false = true then init.getD i v0 else Θ.getD i v0)

/-- Value of one entry of `cost_ij` after the two maskings of `_my_opt_func`
(lines 215-219): the raw term `(d - r^2)^2` is zeroed where the squared
distance is `0` and where the range is negative. -/
def costTermCode (d r : ℚ) : ℚ :=
  if d = 0 then 0 else if r < 0 then 0 else (d - r ^ 2) ^ 2

/-- Stage-2 cost of `_my_opt_func` on an already-pinned `(n,3)` coordinate
list (lines 214-220): `np.sum` of the masked `cost_ij` matrix. -/
def costFn (n : Nat) (Θ : List Vec3) (rm : List (List ℚ)) : ℚ :=
  ((List.range n).map (fun i =>
    ((List.range n).map (fun j =>
      costTermCode (distSq (Θ.getD i v0) (Θ.getD j v0)) (rmGet rm i j))).sum)).sum

/-- Stage-2 cost as claim C3 words it: sum over ordered pairs `(i, j)` with
`i ≠ j` and `rangeMatrix[i,j] ≥ 0` of `(dist² - range²)²`, every such pair
term included. -/
def costClaimC3 (n : Nat) (Θ : List Vec3) (rm : List (List ℚ)) : ℚ :=
  ((List.range n).map (fun i =>
    ((List.range n).map (fun j =>
      if i ≠ j ∧ 0 ≤ rmGet rm i j then
        (distSq (Θ.getD i v0) (Θ.getD j v0) - (rmGet rm i j) ^ 2) ^ 2
      else 0)).sum)).sum

/-- Stage-2 cost with the pair condition the code actually enforces: a term
is kept iff the squared distance is nonzero and the range is nonnegative. -/
def costAmendedC3 (n : Nat) (Θ : List Vec3) (rm : List (List ℚ)) : ℚ :=
  ((List.range n).map (fun i =>
    ((List.range n).map (fun j =>
      if distSq (Θ.getD i v0) (Θ.getD j v0) ≠ 0 ∧ 0 ≤ rmGet rm i j then
        (distSq (Θ.getD i v0) (Θ.getD j v0) - (rmGet rm i j) ^ 2) ^ 2
      else 0)).sum)).sum

/-- Stage-2 cost with the diagonal `i = j` explicitly removed and the other
maskings exactly as in the code (claim C7's Stage-2 half). -/
def costFnNoDiag (n : Nat) (Θ : List Vec3) (rm : List (List ℚ)) : ℚ :=
  ((List.range n).map (fun i =>
    ((List.range n).map (fun j =>
      if i = j then 0
      else costTermCode (distSq (Θ.getD i v0) (Θ.getD j v0)) (rmGet rm i j))).sum)).sum

/-- Embedding of `AutocalibrationSolver.costOpt` (lines 222-233) with the
`scipy.optimize.fmin` direct search as the opaque parameter `opt`:
the input is transpose-reshaped, `Theta_init` is a copy of the result, the
objective pins fixed rows to `Theta_init` before every cost evaluation, and
the optimizer's result is reshaped and pinned once more before returning. -/
def costOpt (opt : (List Vec3 → ℚ) → List Vec3 → List Vec3)
    (anchors_coords : List Vec3) (rm : List (List ℚ)) (fixed : List Bool) :
    List Vec3 :=
  pinFixed fixed (transReshape anchors_coords)
    (reshapeTo (transReshape anchors_coords).length
      (opt
        (fun Θ =>
          costFn (transReshape anchors_coords).length
            (pinFixed fixed (transReshape anchors_coords)
              (reshapeTo (transReshape anchors_coords).length Θ))
            rm)
        (transReshape anchors_coords)))

/-! ### Sample aggregation for Stage 2 and the solver state -/

/-- Samples of one pair `(i, k)`: the `M` values `cube[i, :, k]`. -/
def pairSamples (cube : List (List (List ℚ))) (i k : Nat) : List ℚ :=
  (cube.getD i []).map (fun row => row.getD k (-1))

/-- Embedding of `np.percentile(xs, q)` with the default linear
interpolation: the sorted data is interpolated at position
`p = q / 100 * (M - 1)`.  Note that numpy's `q` is in percent units
(`0 ≤ q ≤ 100`). -/
def npPercentile (q : ℚ) (xs : List ℚ) : ℚ :=
  (List.insertionSort (fun a b => a ≤ b) xs).getD
      (Int.toNat ⌊q / 100 * ((xs.length : ℚ) - 1)⌋) 0 +
    (q / 100 * ((xs.length : ℚ) - 1) - ⌊q / 100 * ((xs.length : ℚ) - 1)⌋) *
      ((List.insertionSort (fun a b => a ≤ b) xs).getD
          (Int.toNat ⌊q / 100 * ((xs.length : ℚ) - 1)⌋ + 1)
          ((List.insertionSort (fun a b => a ≤ b) xs).getD
            (Int.toNat ⌊q / 100 * ((xs.length : ℚ) - 1)⌋) 0) -
        (List.insertionSort (fun a b => a ≤ b) xs).getD
          (Int.toNat ⌊q / 100 * ((xs.length : ℚ) - 1)⌋) 0)

/-- Solver state: the constructor arguments and mutable attributes of the
`AutocalibrationSolver` object (lines 22-57). -/
structure Solver where
  samples_ijk : List (List (List ℚ))
  initial_guess : List Vec3
  autocalibrated_coords : List Vec3
  fixed_anchors : List Bool
  max_iters : Nat
  convergence_thresh : ℚ
  LSq_min_anchors : Nat
  lower_percentile : ℚ
  upper_percentile : ℚ

/-- Embedding of `AutocalibrationSolver.stageOne` in single-sample mode
(lines 59-104 with `sample_idx` given): the range matrix is the cube slice
`samples_ijk[:, sample_idx, :]`, the working estimate restarts from a copy of
`initial_guess`, and the result is stored into `autocalibrated_coords`. -/
def Solver.stageOne (pinv : List (List ℚ) → List (List ℚ)) (s : Solver)
    (sampleIdx : Nat) : Solver :=
  { s with
    autocalibrated_coords :=
      stageOneLoop pinv s.LSq_min_anchors s.samples_ijk.length
        (s.samples_ijk.map (fun rows => rows.getD sampleIdx []))
        s.fixed_anchors s.convergence_thresh s.max_iters s.initial_guess }

/-- Filtered range matrix built by `stageTwo` in single-sample mode
(lines 117-126): entry `(i,k)` keeps the raw slice value
`samples_ijk[i, sample_idx, k]` iff it lies between
`np.percentile(samples_ijk, lower_percentile, axis=1)[i,k]` and
`np.percentile(samples_ijk, upper_percentile, axis=1)[i,k]`, and is the
sentinel `-1` otherwise. -/
def stageTwoFilteredRm (s : Solver) (sampleIdx : Nat) : List (List ℚ) :=
  (List.range s.samples_ijk.length).map (fun i =>
    (List.range s.samples_ijk.length).map (fun k =>
      if rmGet (s.samples_ijk.map (fun rows => rows.getD sampleIdx [])) i k ≤
            npPercentile s.upper_percentile (pairSamples s.samples_ijk i k) ∧
          npPercentile s.lower_percentile (pairSamples s.samples_ijk i k) ≤
            rmGet (s.samples_ijk.map (fun rows => rows.getD sampleIdx [])) i k then
        rmGet (s.samples_ijk.map (fun rows => rows.getD sampleIdx [])) i k
      else -1))

/-- Filtered range matrix as claim C6 words it: the bounds are the
*configured percentiles* of the per-pair samples, i.e. the configured
fractions `lower_percentile` / `upper_percentile` are percentile levels
(25th/75th under the defaults `0.25`/`0.75`), so the level handed to
`np.percentile` is `100 *` the configured value. -/
def claimFilteredRm (s : Solver) (sampleIdx : Nat) : List (List ℚ) :=
  (List.range s.samples_ijk.length).map (fun i =>
    (List.range s.samples_ijk.length).map (fun k =>
      if rmGet (s.samples_ijk.map (fun rows => rows.getD sampleIdx [])) i k ≤
            npPercentile (100 * s.upper_percentile) (pairSamples s.samples_ijk i k) ∧
          npPercentile (100 * s.lower_percentile) (pairSamples s.samples_ijk i k) ≤
            rmGet (s.samples_ijk.map (fun rows => rows.getD sampleIdx [])) i k then
        rmGet (s.samples_ijk.map (fun rows => rows.getD sampleIdx [])) i k
      else -1))

/-- Embedding of `AutocalibrationSolver.stageTwo` in single-sample mode
(lines 106-129): it builds the percentile-filtered range matrix, calls
`costOpt` on the stored coordinates, and *returns* the refined coordinates;
no attribute of the object is assigned, so the state passes through
unchanged. -/
def Solver.stageTwo (opt : (List Vec3 → ℚ) → List Vec3 → List Vec3)
    (s : Solver) (sampleIdx : Nat) : Solver × List Vec3 :=
  (s, costOpt opt s.autocalibrated_coords (stageTwoFilteredRm s sampleIdx)
        s.fixed_anchors)

/-! ### Error evaluator (`estimationError`, lines 131-151) -/

/-- Embedding of `estimationError` with an axis: the signed per-axis
difference `(coords - gt)[:, axis]`. -/
def estimationErrorAxis (coords gt : List Vec3) (axis : Nat) : List ℚ :=
  (coords.zip gt).map (fun p =>
    match axis with
    | 0 => (vsub p.1 p.2).x
    | 1 => (vsub p.1 p.2).y
    | _ => (vsub p.1 p.2).z)

/-- Embedding of `estimationError` without an axis, before the final
elementwise `np.sqrt`: the broadcast `(coords[:, None, :] - gt) ** 2` summed
over the coordinate axis is the `(N,N)` matrix of squared distances between
*every* estimate row and *every* ground-truth row.  The code returns its
elementwise square root, which has the same `(N,N)` shape. -/
def estimationErrorNoAxisSq (coords gt : List Vec3) : List (List ℚ) :=
  coords.map (fun c => gt.map (fun g => distSq c g))

/-- Per-anchor squared deviation as claim C9 words it (squares of the claimed
`(N,)` vector of per-anchor Euclidean norms). -/
def estErrorPerAnchorSq (coords gt : List Vec3) : List ℚ :=
  (coords.zip gt).map (fun p => distSq p.1 p.2)

/-! ### Helper lemmas -/

/-- Folds of functions that agree on the elements of the list agree. -/
theorem foldl_eq_of_forall_mem_eq {α β : Type} (l : List α) (f g : β → α → β)
    (h : ∀ b a, a ∈ l → f b a = g b a) : ∀ b, l.foldl f b = l.foldl g b := by
  induction l with
  | nil => intro b; rfl
  | cons x xs ih =>
    intro b
    simp only [List.foldl_cons]
    rw [h b x (List.mem_cons_self x xs)]
    exact ih (fun b a ha => h b a (List.mem_cons_of_mem x ha)) _

/-- When row `i` carries the sentinel on the diagonal, the code's Stage-1
neighbor gathering coincides with the self-excluding one. -/
theorem stageOneGather_eq_spec (rm : List (List ℚ)) (i : Nat) (coords : List Vec3)
    (n : Nat) (h : rmGet rm i i < 0) :
    stageOneGather rm i coords n = stageOneGatherSpec rm i coords n := by
  unfold stageOneGather stageOneGatherSpec
  congr 1
  apply List.filter_congr
  intro k _
  by_cases hki : k = i
  · subst hki
    simp [decide_eq_true h]
  · simp [hki]

/-- Under an all-sentinel diagonal the code's Stage-1 pass equals the
specification's pass. -/
theorem stageOnePass_eq_spec (pinv : List (List ℚ) → List (List ℚ))
    (minA n : Nat) (rm : List (List ℚ)) (fixed : List Bool) (coords : List Vec3)
    (h : ∀ j, j < n → rmGet rm j j < 0) :
    stageOnePass pinv minA n rm fixed coords =
      stageOnePassSpec pinv minA n rm fixed coords := by
  unfold stageOnePass stageOnePassSpec
  apply foldl_eq_of_forall_mem_eq
  intro c i hi
  rw [stageOneGather_eq_spec rm i c n (h i (List.mem_range.mp hi))]

/-- Under an all-sentinel diagonal the code's Stage-1 iteration equals the
specification's iteration, pass for pass. -/
theorem stageOneLoop_eq_spec (pinv : List (List ℚ) → List (List ℚ))
    (minA n : Nat) (rm : List (List ℚ)) (fixed : List Bool) (thresh : ℚ)
    (h : ∀ j, j < n → rmGet rm j j < 0) :
    ∀ (fuel : Nat) (coords : List Vec3),
      stageOneLoop pinv minA n rm fixed thresh fuel coords =
        stageOneLoopSpec pinv minA n rm fixed thresh fuel coords := by
  intro fuel
  induction fuel with
  | zero => intro c; rfl
  | succ t ih =>
    intro c
    show (if normLtQ (coordsDiffSq (stageOnePass pinv minA n rm fixed c) c) thresh
            then stageOnePass pinv minA n rm fixed c
            else stageOneLoop pinv minA n rm fixed thresh t
              (stageOnePass pinv minA n rm fixed c)) = _
    rw [stageOnePass_eq_spec pinv minA n rm fixed c h]
    show _ = (if normLtQ (coordsDiffSq (stageOnePassSpec pinv minA n rm fixed c) c) thresh
            then stageOnePassSpec pinv minA n rm fixed c
            else stageOneLoopSpec pinv minA n rm fixed thresh t
              (stageOnePassSpec pinv minA n rm fixed c))
    split
    · rfl
    · exact ih _

/-- Version of `List.getD` of `List.set` at the written index. -/
theorem getD_set_self {α : Type} (l : List α) (i : Nat) (a d : α)
    (h : i < l.length) : (l.set i a).getD i d = a := by
  rw [List.getD_eq_getElem?_getD, List.getElem?_set_self h]
  rfl

/-- Version of `List.getD` of `List.set` away from the written index. -/
theorem getD_set_ne {α : Type} (l : List α) {i j : Nat} (a d : α)
    (h : i ≠ j) : (l.set i a).getD j d = l.getD j d := by
  rw [List.getD_eq_getElem?_getD, List.getElem?_set_ne h,
    ← List.getD_eq_getElem?_getD]

/-- Length preservation of the `A[i] = A[-1] - A[i]` loop. -/
theorem buildAStep_foldl_length (K : Nat) (L : List Vec3) (m : Nat) :
    ((List.range m).foldl (buildAStep K) L).length = L.length := by
  induction m with
  | zero => rfl
  | succ m ih =>
    rw [List.range_succ, List.foldl_append]
    simp only [List.foldl_cons, List.foldl_nil, buildAStep, List.length_set]
    exact ih

/-- Entry values of the `A[i] = A[-1] - A[i]` loop after `m` steps: rows
below `m` are rewritten against the (never modified) last row, the rest are
still the initial rows. -/
theorem buildAStep_foldl_getD (K : Nat) (L : List Vec3) (hK : K = L.length) :
    ∀ m : Nat, m ≤ K - 1 → ∀ j : Nat,
      ((List.range m).foldl (buildAStep K) L).getD j v0 =
        if j < m then vsub (L.getD (K - 1) v0) (L.getD j v0)
        else L.getD j v0 := by
  subst hK
  intro m
  induction m with
  | zero => intro _ j; simp
  | succ m ih =>
    intro hm j
    have hm' : m ≤ L.length - 1 := Nat.le_of_succ_le hm
    have hmlt : m < L.length - 1 := hm
    have h1 : ((List.range m).foldl (buildAStep L.length) L).getD (L.length - 1) v0 =
        L.getD (L.length - 1) v0 := by
      rw [ih hm' (L.length - 1), if_neg (by omega)]
    have h2 : ((List.range m).foldl (buildAStep L.length) L).getD m v0 =
        L.getD m v0 := by
      rw [ih hm' m, if_neg (lt_irrefl m)]
    rw [List.range_succ, List.foldl_append, List.foldl_cons, List.foldl_nil]
    rw [show buildAStep L.length ((List.range m).foldl (buildAStep L.length) L) m =
        ((List.range m).foldl (buildAStep L.length) L).set m
          (vsub (((List.range m).foldl (buildAStep L.length) L).getD (L.length - 1) v0)
            (((List.range m).foldl (buildAStep L.length) L).getD m v0)) from rfl]
    rw [h1, h2]
    by_cases hj : j = m
    · subst hj
      rw [getD_set_self _ _ _ _
          (by rw [buildAStep_foldl_length]; omega),
        if_pos (Nat.lt_succ_self j)]
    · rw [getD_set_ne _ _ _ (fun hmj => hj hmj.symm), ih hm' j]
      by_cases hjm : j < m
      · rw [if_pos hjm, if_pos (by omega)]
      · rw [if_neg hjm, if_neg (by omega)]

/-- Entry read of `buildAInit`. -/
theorem buildAInit_getD (coords : List Vec3) (j : Nat) (hj : j < coords.length) :
    (buildAInit coords).getD j v0 = vscale 2 (coords.getD j v0) := by
  unfold buildAInit
  rw [List.getD_eq_getElem _ _ (show j < (coords.map (fun c => vscale 2 c)).length by
      simpa using hj)]
  rw [List.getElem_map, List.getD_eq_getElem _ _ hj]

/-- Matrix `A` built by the code equals the specified `(K-1)×3` matrix with
row `i = 2 * (coord[K-1] - coord[i])`. -/
theorem buildA_eq_spec (coords : List Vec3) : buildA coords = buildASpec coords := by
  have hInitLen : (buildAInit coords).length = coords.length := by simp [buildAInit]
  have hgetD := buildAStep_foldl_getD coords.length (buildAInit coords) hInitLen.symm
  have hfoldLen :
      ((List.range (coords.length - 1)).foldl (buildAStep coords.length)
          (buildAInit coords)).length = coords.length := by
    rw [buildAStep_foldl_length, hInitLen]
  unfold buildA buildASpec
  apply List.ext_getElem
  · simp [List.length_dropLast, hfoldLen]
  · intro i h1 h2
    have hi : i < coords.length - 1 := by
      simpa [List.length_dropLast, hfoldLen] using h1
    have hK : 2 ≤ coords.length := by omega
    rw [List.getElem_map, List.getElem_dropLast, ← List.getD_eq_getElem _ v0]
    rw [hgetD (coords.length - 1) (le_refl _) i, if_pos hi]
    rw [buildAInit_getD coords (coords.length - 1) (by omega),
      buildAInit_getD coords i (by omega)]
    rw [List.getElem_map, List.getElem_dropLast]
    rw [List.getD_eq_getElem coords v0 (show i < coords.length by omega)]
    simp only [vecToList, vsub, vscale, List.cons.injEq, and_true]
    refine ⟨by ring, by ring, by ring⟩

/-- Entry read of a `dropLast` below the cut. -/
theorem getD_dropLast {α : Type} (l : List α) (i : Nat) (d : α)
    (h : i < l.length - 1) : l.dropLast.getD i d = l.getD i d := by
  rw [List.getD_eq_getElem _ _ (show i < l.dropLast.length by
      rw [List.length_dropLast]; exact h),
    List.getElem_dropLast, List.getD_eq_getElem _ _ (by omega)]

/-- Entry read of a `zipWith` of two rational lists. -/
theorem getD_zipWith (f : ℚ → ℚ → ℚ) (as bs : List ℚ) (i : Nat)
    (h1 : i < as.length) (h2 : i < bs.length) :
    (List.zipWith f as bs).getD i 0 = f (as.getD i 0) (bs.getD i 0) := by
  rw [List.getD_eq_getElem _ _ (show i < (List.zipWith f as bs).length by
      rw [List.length_zipWith]; omega),
    List.getElem_zipWith, List.getD_eq_getElem _ _ h1, List.getD_eq_getElem _ _ h2]

/-- Entry read of the squared-ranges list. -/
theorem getD_map_pow (l : List ℚ) (i : Nat) (h : i < l.length) :
    (l.map (fun r => r ^ 2)).getD i 0 = (l.getD i 0) ^ 2 := by
  rw [List.getD_eq_getElem _ _ (show i < (l.map (fun r => r ^ 2)).length by
      rw [List.length_map]; exact h),
    List.getElem_map, List.getD_eq_getElem _ _ h]

/-- Entry read of the squared-norms list. -/
theorem getD_map_normSq (l : List Vec3) (i : Nat) (h : i < l.length) :
    (l.map normSq).getD i 0 = normSq (l.getD i v0) := by
  rw [List.getD_eq_getElem _ _ (show i < (l.map normSq).length by
      rw [List.length_map]; exact h),
    List.getElem_map, List.getD_eq_getElem _ _ h]

/-- Entry read of a map over `List.range`. -/
theorem getD_range_map (g : Nat → ℚ) (n i : Nat) (h : i < n) :
    (((List.range n).map g)).getD i 0 = g i := by
  rw [List.getD_eq_getElem _ _ (show i < ((List.range n).map g).length by
      simp [h]),
    List.getElem_map, List.getElem_range]

/-- Vector `B` built by the code equals the specified `(K-1)`-vector with
`b[i] = range[i]² - range[K-1]² - normSq coord[i] + normSq coord[K-1]`. -/
theorem buildB_eq_spec (coords : List Vec3) (ranges : List ℚ)
    (hlen : ranges.length = coords.length) :
    buildB coords ranges = buildBSpec coords ranges := by
  unfold buildB buildBSpec
  apply List.ext_getElem
  · simp [hlen]
  · intro i h1 h2
    have hi : i < coords.length - 1 := by simpa using h2
    have hK : 1 ≤ coords.length := by omega
    rw [← List.getD_eq_getElem _ (0 : ℚ), ← List.getD_eq_getElem _ (0 : ℚ)]
    rw [getD_zipWith _ _ _ i
        (by rw [List.length_dropLast, List.length_map]; omega)
        (by rw [List.length_dropLast, List.length_map]; omega)]
    rw [getD_range_map _ _ i hi]
    rw [getD_dropLast _ i _ (by rw [List.length_map]; omega),
      getD_dropLast _ i _ (by rw [List.length_map]; omega)]
    rw [getD_map_pow _ i (by omega), getD_map_pow _ _ (by omega),
      getD_map_normSq _ i (by omega)]
    rw [show ranges.length - 1 = coords.length - 1 from by omega]

/-! ### Claim theorems -/

/-- C4: under the precondition that every diagonal range-matrix entry is the
sentinel `-1`, the code's Stage-1 iteration (`stageOneLoop`, transcribing
`stageOne` lines 75-104) is exactly the iteration specified by the claim
(`stageOneLoopSpec`): starting from the given estimate it runs at most
`maxIters` index-order Gauss-Seidel passes, skips fixed anchors, gathers
every neighbor `k ≠ i` with nonnegative range together with `k`'s current
in-pass coordinate, updates anchor `i` through the linear multilateration
subroutine only when the neighbor count reaches `minAnchorsForSolve`, and
stops early exactly when the Euclidean norm of the coordinate change is
below `convergenceThresh`. -/
theorem c4_stageOne_matches_spec (pinv : List (List ℚ) → List (List ℚ))
    (minA n : Nat) (rm : List (List ℚ)) (fixed : List Bool) (thresh : ℚ)
    (fuel : Nat) (coords : List Vec3)
    (hdiag : ∀ j, j < n → rmGet rm j j = -1) :
    stageOneLoop pinv minA n rm fixed thresh fuel coords =
      stageOneLoopSpec pinv minA n rm fixed thresh fuel coords :=
  stageOneLoop_eq_spec pinv minA n rm fixed thresh
    (fun j hj => by rw [hdiag j hj]; norm_num) fuel coords

/-- Witness for C4 at a concrete two-anchor input with sentinel diagonal. -/
theorem c4_witness :
    (∀ j, j < 2 → rmGet [[-1, 3], [3, -1]] j j = -1) ∧
      stageOneLoop (fun _ => [[1], [0], [0]]) 1 2 [[-1, 3], [3, -1]]
          [false, false] (1 / 100) 1 [v0, ⟨1, 0, 0⟩] =
        stageOneLoopSpec (fun _ => [[1], [0], [0]]) 1 2 [[-1, 3], [3, -1]]
          [false, false] (1 / 100) 1 [v0, ⟨1, 0, 0⟩] :=
  ⟨by decide,
    c4_stageOne_matches_spec (fun _ => [[1], [0], [0]]) 1 2 [[-1, 3], [3, -1]]
      [false, false] (1 / 100) 1 [v0, ⟨1, 0, 0⟩] (by decide)⟩

/-- C5: for `K ≥ 2` neighbors, `coordinatesOpt` returns
`pinv(A) · b` where `A` is the `(K-1)×3` matrix with row
`i = 2 * (coord[K-1] - coord[i])` and `b` the `(K-1)`-vector with
`b[i] = range[i]² - range[K-1]² - normSq coord[i] + normSq coord[K-1]`;
there is no rank check (`pinv` is applied unconditionally). -/
theorem c5_coordinatesOpt_matches_spec (pinv : List (List ℚ) → List (List ℚ))
    (coords : List Vec3) (ranges : List ℚ) (_hK : 2 ≤ coords.length)
    (hlen : ranges.length = coords.length) :
    buildA coords = buildASpec coords ∧
      buildB coords ranges = buildBSpec coords ranges ∧
      coordinatesOpt pinv coords ranges =
        vecOf (matVec (pinv (buildASpec coords)) (buildBSpec coords ranges)) := by
  refine ⟨buildA_eq_spec coords, buildB_eq_spec coords ranges hlen, ?_⟩
  rw [coordinatesOpt, buildA_eq_spec coords, buildB_eq_spec coords ranges hlen]

/-- Witness for C5 at a concrete three-neighbor input. -/
theorem c5_witness :
    2 ≤ ([⟨1, 0, 0⟩, ⟨0, 1, 0⟩, ⟨0, 0, 1⟩] : List Vec3).length ∧
      ([1, 2, 3] : List ℚ).length = ([⟨1, 0, 0⟩, ⟨0, 1, 0⟩, ⟨0, 0, 1⟩] : List Vec3).length ∧
      buildA [⟨1, 0, 0⟩, ⟨0, 1, 0⟩, ⟨0, 0, 1⟩] = buildASpec [⟨1, 0, 0⟩, ⟨0, 1, 0⟩, ⟨0, 0, 1⟩] ∧
      buildB [⟨1, 0, 0⟩, ⟨0, 1, 0⟩, ⟨0, 0, 1⟩] [1, 2, 3] =
        buildBSpec [⟨1, 0, 0⟩, ⟨0, 1, 0⟩, ⟨0, 0, 1⟩] [1, 2, 3] ∧
      coordinatesOpt (fun _ => [[3, 0], [4, 0], [5, 0]]) [⟨1, 0, 0⟩, ⟨0, 1, 0⟩, ⟨0, 0, 1⟩]
          [1, 2, 3] =
        vecOf (matVec [[3, 0], [4, 0], [5, 0]]
          (buildBSpec [⟨1, 0, 0⟩, ⟨0, 1, 0⟩, ⟨0, 0, 1⟩] [1, 2, 3])) := by
  have h := c5_coordinatesOpt_matches_spec (fun _ => [[3, 0], [4, 0], [5, 0]])
    [⟨1, 0, 0⟩, ⟨0, 1, 0⟩, ⟨0, 0, 1⟩] [1, 2, 3] (by decide) (by decide)
  exact ⟨by decide, by decide, h.1, h.2.1, h.2.2⟩

/-- C3 counterexample: with two distinct anchors at the *same* coordinates
and a valid range `1` between them, the code's Stage-2 cost is `0` while the
claimed sum over all ordered pairs `i ≠ j` with nonnegative range is `2`:
the `cost_ij[distances_ij == 0] = 0` masking removes pair terms with
coincident coordinates even when `i ≠ j`. -/
theorem c3_counterexample :
    costFn 2 [v0, v0] [[-1, 1], [1, -1]] ≠ costClaimC3 2 [v0, v0] [[-1, 1], [1, -1]] := by
  decide

/-- C3 amended: for every flattened coordinate list and range matrix, the
Stage-2 cost of `_my_opt_func` equals the sum over ordered pairs `(i, j)`
such that `‖Θ_i - Θ_j‖² ≠ 0` and `rangeMatrix[i,j] ≥ 0` of
`(‖Θ_i - Θ_j‖² - rangeMatrix[i,j]²)²`; pairs with coincident coordinates are
excluded even when `i ≠ j` (and `i = j` pairs always have distance `0`). -/
theorem c3_cost_amended (n : Nat) (Θ : List Vec3) (rm : List (List ℚ)) :
    costFn n Θ rm = costAmendedC3 n Θ rm := by
  have hterm : ∀ d r : ℚ,
      costTermCode d r = if d ≠ 0 ∧ 0 ≤ r then (d - r ^ 2) ^ 2 else 0 := by
    intro d r
    unfold costTermCode
    by_cases hd : d = 0
    · simp [hd]
    · by_cases hr : r < 0
      · simp [hd, hr, not_le.mpr hr]
      · simp [hd, hr, not_lt.mp hr]
  simp only [costFn, costAmendedC3, hterm]

/-- C7 counterexample: with `rangeMatrix[0,0] = 0` (a nonnegative self-entry)
the Stage-1 update *does* use anchor 0's own coordinate and range as a
neighbor: the gathered count reaches `minAnchorsForSolve = 4` and anchor 0 is
rewritten, whereas with self-entries excluded it would be left unchanged. -/
theorem c7_counterexample :
    stageOneLoop (fun _ => [[0, 0, 0], [0, 0, 0], [0, 0, 0]]) 4 4
        [[0, 1, 1, 1], [1, -1, 1, 1], [1, 1, -1, 1], [1, 1, 1, -1]]
        [false, true, true, true] (1 / 100) 1
        [⟨9, 9, 9⟩, v0, ⟨1, 0, 0⟩, ⟨0, 1, 0⟩] ≠
      stageOneLoopSpec (fun _ => [[0, 0, 0], [0, 0, 0], [0, 0, 0]]) 4 4
        [[0, 1, 1, 1], [1, -1, 1, 1], [1, 1, -1, 1], [1, 1, 1, -1]]
        [false, true, true, true] (1 / 100) 1
        [⟨9, 9, 9⟩, v0, ⟨1, 0, 0⟩, ⟨0, 1, 0⟩] := by
  decide

/-- C7 amended: the Stage-1 gathering excludes the self-entry `(i,i)`
exactly when that entry is negative (in particular whenever it carries the
sentinel `-1`), in which case it coincides with the self-excluding
gathering; and the Stage-2 cost of `_my_opt_func` never includes an `i = j`
term, for every input. -/
theorem c7_self_exclusion_amended (rm : List (List ℚ)) (i : Nat)
    (coords : List Vec3) (n m : Nat) (Θ : List Vec3)
    (hdiag : rmGet rm i i < 0) :
    stageOneGather rm i coords n = stageOneGatherSpec rm i coords n ∧
      costFn m Θ rm = costFnNoDiag m Θ rm := by
  refine ⟨stageOneGather_eq_spec rm i coords n hdiag, ?_⟩
  have hterm : ∀ (x : Vec3) (r : ℚ), costTermCode (distSq x x) r = 0 := by
    intro x r
    simp [costTermCode, distSq, vsub, normSq]
  have hdrop : ∀ a b : Nat,
      (if a = b then 0
        else costTermCode (distSq (Θ.getD a v0) (Θ.getD b v0)) (rmGet rm a b)) =
        costTermCode (distSq (Θ.getD a v0) (Θ.getD b v0)) (rmGet rm a b) := by
    intro a b
    by_cases h : a = b
    · subst h
      simp [hterm]
    · simp [h]
  simp only [costFn, costFnNoDiag, hdrop]

/-- Witness for C7 at a concrete sentinel-diagonal input. -/
theorem c7_witness :
    rmGet [[-1]] 0 0 < 0 ∧
      (stageOneGather [[-1]] 0 [v0] 1 = stageOneGatherSpec [[-1]] 0 [v0] 1 ∧
        costFn 1 [v0] [[-1]] = costFnNoDiag 1 [v0] [[-1]]) :=
  ⟨by decide, c7_self_exclusion_amended [[-1]] 0 [v0] 1 1 [v0] (by decide)⟩

/-- Length of `reshapeTo`. -/
theorem reshapeTo_length (n : Nat) (xs : List Vec3) : (reshapeTo n xs).length = n := by
  simp [reshapeTo]

/-- Length of `transReshape`. -/
theorem transReshape_length (coords : List Vec3) :
    (transReshape coords).length = coords.length := by
  simp [transReshape]

/-- Entry of `pinFixed` at a fixed index: the pinned value from `init`. -/
theorem pinFixed_getD_fixed (fixed : List Bool) (init Θ : List Vec3) (i : Nat)
    (hi : i < Θ.length) (hf : fixed.getD i false = true) :
    (pinFixed fixed init Θ).getD i v0 = init.getD i v0 := by
  unfold pinFixed
  rw [List.getD_eq_getElem _ _ (show i <
      ((List.range Θ.length).map (fun i =>
        if fixed.getD i false = true then init.getD i v0 else Θ.getD i v0)).length by
      simpa using hi)]
  rw [List.getElem_map, List.getElem_range, hf]
  simp

/-- Every returned row of `costOpt` at a fixed index carries the
transpose-reshaped input's row, whatever the optimizer returns. -/
theorem costOpt_getD_fixed (opt : (List Vec3 → ℚ) → List Vec3 → List Vec3)
    (ac : List Vec3) (rm : List (List ℚ)) (fixed : List Bool) (i : Nat)
    (hi : i < ac.length) (hf : fixed.getD i false = true) :
    (costOpt opt ac rm fixed).getD i v0 = (transReshape ac).getD i v0 := by
  unfold costOpt
  apply pinFixed_getD_fixed
  · rw [reshapeTo_length, transReshape_length]
    exact hi
  · exact hf

/-- A length-2 coordinate list pinned with an all-true mask is the pin
source. -/
theorem pinFixed_two_fixed (init Θ : List Vec3) (h : Θ.length = 2) :
    pinFixed [true, true] init Θ = [init.getD 0 v0, init.getD 1 v0] := by
  unfold pinFixed
  rw [h]
  rfl

/-- With two anchors, both fixed, `costOpt` returns the transpose-reshaped
input regardless of the optimizer. -/
theorem costOpt_allfixed_two (opt : (List Vec3 → ℚ) → List Vec3 → List Vec3)
    (ac : List Vec3) (rm : List (List ℚ)) (hac : ac.length = 2) :
    costOpt opt ac rm [true, true] =
      [(transReshape ac).getD 0 v0, (transReshape ac).getD 1 v0] := by
  unfold costOpt
  apply pinFixed_two_fixed
  rw [reshapeTo_length, transReshape_length, hac]

/-- C1 (refuting the Stage-2 half of the claim): on the two-anchor input
`[(0,1,2), (3,4,5)]` with anchor 0 fixed, the row the code pins before every
cost evaluation and in the value returned by `costOpt` is `(0,3,1)` — row 0
of the transpose-reshaped input produced by
`anchors_coords.T.reshape(-1,3)` — and not the fixed anchor's input row
`(0,1,2)`, for every optimizer and every optimizer probe. -/
theorem c1_fixed_anchor_pinned_to_scrambled :
    (∀ opt : (List Vec3 → ℚ) → List Vec3 → List Vec3,
        (costOpt opt [⟨0, 1, 2⟩, ⟨3, 4, 5⟩] [[-1, 1], [1, -1]] [true, false]).getD 0 v0 =
          ⟨0, 3, 1⟩) ∧
      (∀ Θ : List Vec3,
        (pinFixed [true, false] (transReshape [⟨0, 1, 2⟩, ⟨3, 4, 5⟩])
            (reshapeTo 2 Θ)).getD 0 v0 = ⟨0, 3, 1⟩) ∧
      ([⟨0, 1, 2⟩, ⟨3, 4, 5⟩] : List Vec3).getD 0 v0 = ⟨0, 1, 2⟩ ∧
      ([true, false] : List Bool).getD 0 false = true := by
  refine ⟨?_, ?_, by decide, by decide⟩
  · intro opt
    exact (costOpt_getD_fixed opt [⟨0, 1, 2⟩, ⟨3, 4, 5⟩] [[-1, 1], [1, -1]]
      [true, false] 0 (by decide) (by decide)).trans (by decide)
  · intro Θ
    exact (pinFixed_getD_fixed [true, false] (transReshape [⟨0, 1, 2⟩, ⟨3, 4, 5⟩])
      (reshapeTo 2 Θ) 0 (by rw [reshapeTo_length]; decide) (by decide)).trans
      (by decide)

/-- Concrete two-anchor solver used to refute claim C2: both anchors fixed,
`max_iters = 0` (Stage 1 keeps the initial guess), one sample per pair. -/
def solverC2 : Solver :=
  { samples_ijk := [[[5, 5]], [[5, 5]]]
    initial_guess := [⟨1, 2, 3⟩, ⟨4, 5, 6⟩]
    autocalibrated_coords := [⟨1, 2, 3⟩, ⟨4, 5, 6⟩]
    fixed_anchors := [true, true]
    max_iters := 0
    convergence_thresh := 1 / 100
    LSq_min_anchors := 4
    lower_percentile := 1 / 4
    upper_percentile := 3 / 4 }

/-- C2 (refuting the claim): running `stageOne` then `stageTwo` on sample 0
of `solverC2`, the solver's stored estimate after `stageTwo` still equals the
Stage-1 output `[(1,2,3), (4,5,6)]`, while the Stage-2-refined coordinates
returned by `stageTwo` are `[(1,4,2), (5,3,6)]` for every optimizer and every
pseudo-inverse: `stageTwo` does not mutate the run's coordinate estimate, and
its return value is not what the stored output holds. -/
theorem c2_stageTwo_result_not_stored :
    ∀ (pinv : List (List ℚ) → List (List ℚ))
      (opt : (List Vec3 → ℚ) → List Vec3 → List Vec3),
      ((Solver.stageOne pinv solverC2 0).stageTwo opt 0).1.autocalibrated_coords =
          (Solver.stageOne pinv solverC2 0).autocalibrated_coords ∧
        (Solver.stageOne pinv solverC2 0).autocalibrated_coords =
          [⟨1, 2, 3⟩, ⟨4, 5, 6⟩] ∧
        ((Solver.stageOne pinv solverC2 0).stageTwo opt 0).2 =
          [⟨1, 4, 2⟩, ⟨5, 3, 6⟩] ∧
        ([⟨1, 4, 2⟩, ⟨5, 3, 6⟩] : List Vec3) ≠ [⟨1, 2, 3⟩, ⟨4, 5, 6⟩] := by
  intro pinv opt
  have hs : Solver.stageOne pinv solverC2 0 = solverC2 := rfl
  refine ⟨by rw [hs]; rfl, by rw [hs]; rfl, ?_, by decide⟩
  rw [hs]
  have h2 : (solverC2.stageTwo opt 0).2 =
      costOpt opt [⟨1, 2, 3⟩, ⟨4, 5, 6⟩] (stageTwoFilteredRm solverC2 0)
        [true, true] := rfl
  rw [h2, costOpt_allfixed_two opt [⟨1, 2, 3⟩, ⟨4, 5, 6⟩]
    (stageTwoFilteredRm solverC2 0) (by decide)]
  decide

/-- C8 (refuting the claim): on the all-fixed two-anchor input
`[(1,2,3), (4,5,6)]` with ranges `5`, `costOpt` returns the
transpose-reshaped coordinates whatever the optimizer does, and the Stage-2
cost at the returned estimate is `128` while the cost at the input estimate
is `8` — the final cost exceeds the initial cost. -/
theorem c8_cost_increases :
    ∀ opt : (List Vec3 → ℚ) → List Vec3 → List Vec3,
      costFn 2 [⟨1, 2, 3⟩, ⟨4, 5, 6⟩] [[-1, 5], [5, -1]] = 8 ∧
        costFn 2 (costOpt opt [⟨1, 2, 3⟩, ⟨4, 5, 6⟩] [[-1, 5], [5, -1]] [true, true])
            [[-1, 5], [5, -1]] = 128 := by
  intro opt
  refine ⟨by decide, ?_⟩
  rw [costOpt_allfixed_two opt [⟨1, 2, 3⟩, ⟨4, 5, 6⟩] [[-1, 5], [5, -1]] (by decide)]
  decide

/-- Concrete two-anchor, three-sample solver with the default percentile
configuration `lower_percentile = 0.25`, `upper_percentile = 0.75`, used to
refute claim C6.  Every pair has the samples `[0, 50, 100]`. -/
def solverC6 : Solver :=
  { samples_ijk := [[[0, 0], [50, 50], [100, 100]], [[0, 0], [50, 50], [100, 100]]]
    initial_guess := [v0, v0]
    autocalibrated_coords := [v0, v0]
    fixed_anchors := [false, false]
    max_iters := 1500
    convergence_thresh := 1 / 100
    LSq_min_anchors := 4
    lower_percentile := 1 / 4
    upper_percentile := 3 / 4 }

/-- C6 (refuting the claim): for pair `(0,1)` of `solverC6` at sample index
1 the raw value is `50`; the code hands the configured fractions `0.25` and
`0.75` directly to `np.percentile`, producing the 0.25th and 0.75th
percentile bounds `1/4` and `3/4` of the samples `[0, 50, 100]` and filtering
`50` to the sentinel `-1`, whereas the claimed 25th and 75th percentile
bounds are `25` and `75`, which would keep `50`. -/
theorem c6_percentile_misuse :
    rmGet (stageTwoFilteredRm solverC6 1) 0 1 = -1 ∧
      rmGet (claimFilteredRm solverC6 1) 0 1 = 50 ∧
      rmGet (solverC6.samples_ijk.map (fun rows => rows.getD 1 [])) 0 1 = 50 ∧
      npPercentile (1 / 4) (pairSamples solverC6.samples_ijk 0 1) = 1 / 4 ∧
      npPercentile (3 / 4) (pairSamples solverC6.samples_ijk 0 1) = 3 / 4 ∧
      npPercentile 25 (pairSamples solverC6.samples_ijk 0 1) = 25 ∧
      npPercentile 75 (pairSamples solverC6.samples_ijk 0 1) = 75 := by
  decide

/-- C9 (refuting the no-axis half of the claim): on the two-anchor input
with estimate `[(0,0,0), (1,2,0)]` and ground truth `[(0,0,0), (0,0,0)]`,
the code's axis-free error (before the final elementwise square root) is the
`2×2` matrix `[[0,0],[5,5]]` of all estimate-to-ground-truth squared
distances, not the claimed per-anchor `2`-vector `[0, 5]`; the per-axis
variant does return the signed per-axis difference. -/
theorem c9_error_matrix_shape :
    estimationErrorNoAxisSq [v0, ⟨1, 2, 0⟩] [v0, v0] = [[0, 0], [5, 5]] ∧
      estErrorPerAnchorSq [v0, ⟨1, 2, 0⟩] [v0, v0] = [0, 5] ∧
      estimationErrorAxis [v0, ⟨1, 2, 0⟩] [v0, v0] 0 = [0, 1] ∧
      estimationErrorAxis [v0, ⟨1, 2, 0⟩] [v0, v0] 1 = [0, 2] := by
  decide

/-- C10: `stageTwo` (and the `costOpt` call inside it) leaves the whole
solver state — in particular the stored coordinate estimate and the sample
cube — unchanged for every optimizer, every state and every sample index;
the refined coordinates exist only in the returned value. -/
theorem c10_stageTwo_frame (opt : (List Vec3 → ℚ) → List Vec3 → List Vec3)
    (s : Solver) (sampleIdx : Nat) :
    (s.stageTwo opt sampleIdx).1 = s ∧
      (s.stageTwo opt sampleIdx).1.autocalibrated_coords = s.autocalibrated_coords ∧
      (s.stageTwo opt sampleIdx).1.samples_ijk = s.samples_ijk ∧
      (s.stageTwo opt sampleIdx).1.initial_guess = s.initial_guess :=
  ⟨rfl, rfl, rfl, rfl⟩
